import Mathlib

/-!
Shallow embedding of the encrypted-chat program `src/rust_03/src/main.rs`
(Diffie–Hellman key agreement, LCG stream cipher, length-framed duplex
channel).  Machine integers are modelled as `Nat`; every place where the
Rust code reduces modulo a power of two or casts to a narrower width is
made explicit with `% 2^w` or a bit mask.  Fallible reads from the wire
are modelled by pattern matching on a finite list of received bytes.
-/

namespace StreamChat

/-- Fixed prime modulus `P` of the key exchange (`const P: u64`). -/
def P : Nat := 0xD87FA3E291B4C7F3

/-- Fixed generator `G` of the key exchange (`const G: u64`). -/
def G : Nat := 2

/-- LCG multiplier (`const LCG_A: u64 = 1103515245`). -/
def LCG_A : Nat := 1103515245

/-- LCG increment (`const LCG_C: u64 = 12345`). -/
def LCG_C : Nat := 12345

/-- LCG modulus (`const LCG_M: u64 = 1u64 << 32`). -/
def LCG_M : Nat := 2 ^ 32

/-!
## ModularArithmetic

`fn mod_pow(mut base: u128, mut exp: u128, modulus: u128) -> u64` is a
binary square-and-multiply loop over `u128` values; the final
`result as u64` cast is modelled by `% 2^64`.  The loop mutates
`base`, `exp` and `result`; we pass them explicitly.
-/

/-- The `while exp > 0` loop body of `mod_pow`: on an odd exponent
multiply `result` by `base` modulo `modulus`, then square `base`
modulo `modulus` and halve the exponent. -/
def modPowLoop (base exp modulus result : Nat) : Nat :=
  if h : exp = 0 then result
  else
    modPowLoop ((base * base) % modulus) (exp / 2) modulus
      (if exp % 2 = 1 then (result * base) % modulus else result)
termination_by exp
decreasing_by exact Nat.div_lt_self (Nat.pos_of_ne_zero h) (by omega)

/-- `mod_pow`: reduce the base, run the square-and-multiply loop from
`result = 1`, and cast the `u128` accumulator down to `u64`. -/
def mod_pow (base exp modulus : Nat) : Nat :=
  modPowLoop (base % modulus) exp modulus 1 % 2 ^ 64

/-!
## KeystreamCipher

`struct StreamCipher { state: u64 }` with

    fn next_byte(&mut self) -> u8 {
        self.state = ((self.state as u128 * LCG_A as u128 + LCG_C as u128)
                       % LCG_M as u128) as u64;
        (self.state & 0xFF) as u8
    }

The widening to `u128` never overflows for `Nat`, and the result of
`% LCG_M` fits in `u64`, so the `as u64` cast is the identity; the state
update is therefore exactly `(state * LCG_A + LCG_C) % LCG_M`.
`encrypt` XORs each input byte with one fresh keystream byte, and
`decrypt` simply calls `encrypt`.
-/

/-- One `next_byte` call: returns the emitted byte together with the new
cipher state. -/
def next_byte (state : Nat) : Nat × Nat :=
  let state' := (state * LCG_A + LCG_C) % LCG_M
  (state' &&& 0xFF, state')

/-- `StreamCipher::encrypt`: XOR each data byte, in order, with one
keystream byte; returns the output bytes and the final cipher state. -/
def encrypt (state : Nat) : List Nat → List Nat × Nat
  | [] => ([], state)
  | b :: rest =>
    let k := next_byte state
    let r := encrypt k.2 rest
    (Nat.xor b k.1 :: r.1, r.2)

/-- `StreamCipher::decrypt` is literally `self.encrypt(data)`. -/
def decrypt (state : Nat) (data : List Nat) : List Nat × Nat :=
  encrypt state data

/-- The cipher state after `n` keystream steps (the second component of
`n` successive `next_byte` calls), starting from `state`. -/
def stepState : Nat → Nat → Nat
  | 0, state => state
  | n + 1, state => stepState n (next_byte state).2

/-- The byte sequence emitted by a cipher instance seeded with `state`
and asked for `n` keystream bytes. -/
def keystream : Nat → Nat → List Nat
  | 0, _ => []
  | n + 1, state => (next_byte state).1 :: keystream n (next_byte state).2

/-!
## FrameCodec

Send path (`chat_loop`, lines 166–169):

    let length = encrypted.len() as u16;
    stream.write_all(&length.to_be_bytes())?;
    stream.write_all(&encrypted)?;
    stream.flush()?;

The `as u16` cast is `% 2^16`; `u16::to_be_bytes` splits the (already
`< 2^16`) value into its high and low bytes.  There is no check that the
payload fits in 65535 bytes.

Receive path (`chat_loop`, lines 120–131): read exactly 2 header bytes
(`std::process::exit(0)` on failure), decode them big-endian
(`u16::from_be_bytes`), then read exactly that many payload bytes
(report and `continue` on failure).  The wire is modelled as the finite
list of bytes that will ever arrive; a `read_exact` fails exactly when
fewer bytes than requested remain.
-/

/-- Big-endian byte pair of a `u16` value (`u16::to_be_bytes`). -/
def u16_to_be (length : Nat) : List Nat :=
  [length / 256 % 256, length % 256]

/-- Big-endian decoding of two wire bytes (`u16::from_be_bytes`). -/
def u16_from_be (b0 b1 : Nat) : Nat :=
  256 * b0 + b1

/-- The bytes the send path puts on the wire for one message:
`encrypted.len() as u16` in big-endian, then the payload itself.  The
length is silently truncated to 16 bits; the payload never is. -/
def writeFrame (payload : List Nat) : List Nat :=
  u16_to_be (payload.length % 2 ^ 16) ++ payload

/-- The frame reader: 2 header bytes, then exactly the announced number
of payload bytes; returns the payload and the unread remainder of the
wire, or `none` when a read comes up short. -/
def readFrame (buf : List Nat) : Option (List Nat × List Nat) :=
  match buf with
  | b0 :: b1 :: rest =>
    if rest.length < u16_from_be b0 b1 then none
    else some (rest.take (u16_from_be b0 b1), rest.drop (u16_from_be b0 b1))
  | _ => none

/-!
## ReceiveLoop

One iteration of the spawned receive loop.  `String::from_utf8`
performs full UTF-8 validation; the byte-level acceptance table below is
the standard RFC 3629 one that Rust's validator implements (ASCII,
C2–DF + 1 continuation, E0/E1–EC/ED/EE–EF + 2 with the usual
overlong/surrogate exclusions, F0/F1–F3/F4 + 3 with the usual
overlong/above-10FFFF exclusions).
-/

/-- UTF-8 continuation byte test: `0x80 ≤ b ≤ 0xBF`. -/
def isCont (b : Nat) : Bool :=
  decide (0x80 ≤ b ∧ b ≤ 0xBF)

/-- Whether a byte list is valid UTF-8, as `String::from_utf8` decides
it. -/
def validUtf8 : List Nat → Bool
  | [] => true
  | b :: rest =>
    if b ≤ 0x7F then validUtf8 rest
    else if 0xC2 ≤ b ∧ b ≤ 0xDF then
      match rest with
      | c1 :: rest2 => isCont c1 && validUtf8 rest2
      | [] => false
    else if b = 0xE0 then
      match rest with
      | c1 :: c2 :: rest2 =>
        decide (0xA0 ≤ c1 ∧ c1 ≤ 0xBF) && isCont c2 && validUtf8 rest2
      | _ => false
    else if (0xE1 ≤ b ∧ b ≤ 0xEC) ∨ (0xEE ≤ b ∧ b ≤ 0xEF) then
      match rest with
      | c1 :: c2 :: rest2 => isCont c1 && isCont c2 && validUtf8 rest2
      | _ => false
    else if b = 0xED then
      match rest with
      | c1 :: c2 :: rest2 =>
        decide (0x80 ≤ c1 ∧ c1 ≤ 0x9F) && isCont c2 && validUtf8 rest2
      | _ => false
    else if b = 0xF0 then
      match rest with
      | c1 :: c2 :: c3 :: rest2 =>
        decide (0x90 ≤ c1 ∧ c1 ≤ 0xBF) && isCont c2 && isCont c3 && validUtf8 rest2
      | _ => false
    else if 0xF1 ≤ b ∧ b ≤ 0xF3 then
      match rest with
      | c1 :: c2 :: c3 :: rest2 =>
        isCont c1 && isCont c2 && isCont c3 && validUtf8 rest2
      | _ => false
    else if b = 0xF4 then
      match rest with
      | c1 :: c2 :: c3 :: rest2 =>
        decide (0x80 ≤ c1 ∧ c1 ≤ 0x8F) && isCont c2 && isCont c3 && validUtf8 rest2
      | _ => false
    else false

/-- Outcome of one iteration of the receive loop.  `disconnect` models
the `std::process::exit(0)` taken when the 2-byte header read fails;
`readError` models the reported-then-`continue` path when the payload
read fails (cipher untouched); `surfaced` is a printed message;
`dropped` is a decrypted-but-invalid-UTF-8 payload that is silently
discarded while the loop continues. -/
inductive RecvOutcome where
  | disconnect : RecvOutcome
  | readError (state : Nat) : RecvOutcome
  | surfaced (message : List Nat) (state : Nat) (rest : List Nat) : RecvOutcome
  | dropped (state : Nat) (rest : List Nat) : RecvOutcome
deriving DecidableEq, Repr

/-- One iteration of the receive loop of `chat_loop` over the remaining
wire bytes `buf` with receive-cipher state `state`. -/
def recvStep (state : Nat) (buf : List Nat) : RecvOutcome :=
  match buf with
  | b0 :: b1 :: rest =>
    if rest.length < u16_from_be b0 b1 then RecvOutcome.readError state
    else
      let decrypted := decrypt state (rest.take (u16_from_be b0 b1))
      if validUtf8 decrypted.1 then
        RecvOutcome.surfaced decrypted.1 decrypted.2 (rest.drop (u16_from_be b0 b1))
      else
        RecvOutcome.dropped decrypted.2 (rest.drop (u16_from_be b0 b1))
  | _ => RecvOutcome.disconnect

/-!
## Helper lemmas
-/

/-- The square-and-multiply loop computes `r * b ^ e mod m` whenever the
modulus exceeds 1 and the accumulator is already reduced. -/
theorem modPowLoop_correct (e : Nat) : ∀ b m r, 1 < m → r < m →
    modPowLoop b e m r = (r * b ^ e) % m := by
  induction e using Nat.strong_induction_on with
  | _ e ih =>
    intro b m r hm hr
    rw [modPowLoop]
    split
    · rename_i he
      subst he
      simp [Nat.mod_eq_of_lt hr]
    · rename_i he
      have hpos : 0 < m := by omega
      have h2 : e / 2 < e := Nat.div_lt_self (Nat.pos_of_ne_zero he) (by omega)
      have hr2 : (if e % 2 = 1 then (r * b) % m else r) < m := by
        split
        · exact Nat.mod_lt _ hpos
        · exact hr
      rw [ih (e / 2) h2 _ m _ hm hr2]
      have hsq : ∀ x : Nat, (x * ((b * b) % m) ^ (e / 2)) % m
          = (x * (b * b) ^ (e / 2)) % m := by
        intro x
        conv_lhs => rw [Nat.mul_mod, ← Nat.pow_mod, ← Nat.mul_mod]
      rw [hsq]
      have hbb : (b * b) ^ (e / 2) = b ^ (2 * (e / 2)) := by
        rw [Nat.pow_mul, Nat.pow_two]
      rw [hbb]
      by_cases hodd : e % 2 = 1
      · rw [if_pos hodd, Nat.mod_mul_mod]
        have hexp : 2 * (e / 2) + 1 = e := by omega
        rw [Nat.mul_assoc, ← Nat.pow_succ', Nat.succ_eq_add_one, hexp]
      · rw [if_neg hodd]
        have hexp : 2 * (e / 2) = e := by omega
        rw [hexp]

/-- `mod_pow` is plain modular exponentiation as long as the modulus
fits the `u64` return type (all call sites pass `P < 2^64`). -/
theorem mod_pow_correct (b e m : Nat) (hm : 1 < m) (hle : m ≤ 2 ^ 64) :
    mod_pow b e m = b ^ e % m := by
  unfold mod_pow
  rw [modPowLoop_correct e (b % m) m 1 hm hm, Nat.one_mul, ← Nat.pow_mod]
  exact Nat.mod_eq_of_lt (lt_of_lt_of_le (Nat.mod_lt _ (by omega)) hle)

/-- With a zero exponent the loop never runs and `mod_pow` returns the
initial accumulator 1, whatever the modulus. -/
theorem mod_pow_zero (x m : Nat) : mod_pow x 0 m = 1 := by
  rw [mod_pow, modPowLoop]
  norm_num

/-- `encrypt` emits exactly one output byte per input byte. -/
theorem encrypt_length (data : List Nat) : ∀ s, (encrypt s data).1.length = data.length := by
  induction data with
  | nil => intro s; rfl
  | cons b rest ih => intro s; simp [encrypt, ih]

/-- `encrypt` advances the cipher state by exactly one keystream step
per input byte. -/
theorem encrypt_state (data : List Nat) : ∀ s, (encrypt s data).2 = stepState data.length s := by
  induction data with
  | nil => intro s; rfl
  | cons b rest ih => intro s; simp [encrypt, ih, stepState]

/-- XORing twice with the same keystream (same seed, same offset)
restores the plaintext. -/
theorem encrypt_encrypt (data : List Nat) : ∀ s, (encrypt s (encrypt s data).1).1 = data := by
  induction data with
  | nil => intro s; rfl
  | cons b rest ih =>
    intro s
    simp only [encrypt, ih, List.cons.injEq, and_true]
    exact Nat.xor_cancel_right _ _

/-!
## Claim theorems
-/

/-- C1: the claim says the send path rejects or flags any payload longer
than 65535 bytes.  It does not: `encrypted.len() as u16` silently
truncates, so a 65536-byte payload goes out with a length header of 0
followed by all 65536 payload bytes, and a reader of that frame returns
an empty message, leaving the 65536 ciphertext bytes to be misparsed as
subsequent frames. -/
theorem c1_oversize_frame_truncated :
    writeFrame (List.replicate 65536 97) = 0 :: 0 :: List.replicate 65536 97 ∧
    readFrame (writeFrame (List.replicate 65536 97))
      = some ([], List.replicate 65536 97) := by
  have hw : writeFrame (List.replicate 65536 97) = 0 :: 0 :: List.replicate 65536 97 := by
    unfold writeFrame u16_to_be
    rw [List.length_replicate]
    norm_num
  refine ⟨hw, ?_⟩
  have h0 : u16_from_be 0 0 = 0 := rfl
  rw [hw]
  simp only [readFrame, h0, List.length_replicate]
  rw [if_neg (by omega), List.take_zero, List.drop_zero]

/-- C2: in the post-handshake receive loop, failing to read the 2-byte
header (fewer than 2 bytes remain on the wire) terminates the process,
while failing to read the announced payload is reported and the loop
continues with the cipher untouched — it never terminates the session. -/
theorem c2_failure_asymmetry (s b0 b1 : Nat) (rest : List Nat)
    (h : rest.length < u16_from_be b0 b1) :
    recvStep s [] = RecvOutcome.disconnect ∧
    recvStep s [b0] = RecvOutcome.disconnect ∧
    recvStep s (b0 :: b1 :: rest) = RecvOutcome.readError s ∧
    recvStep s (b0 :: b1 :: rest) ≠ RecvOutcome.disconnect := by
  refine ⟨rfl, rfl, ?_, ?_⟩
  · simp only [recvStep]
    rw [if_pos h]
  · simp only [recvStep]
    rw [if_pos h]
    simp

/-- Closed instance of C2 at a concrete wire prefix announcing 5 payload
bytes of which none arrive. -/
theorem c2_failure_asymmetry_witness :
    ([] : List Nat).length < u16_from_be 0 5 ∧
    (recvStep 0 [] = RecvOutcome.disconnect ∧
     recvStep 0 [0] = RecvOutcome.disconnect ∧
     recvStep 0 (0 :: 5 :: []) = RecvOutcome.readError 0 ∧
     recvStep 0 (0 :: 5 :: []) ≠ RecvOutcome.disconnect) :=
  ⟨by decide, c2_failure_asymmetry 0 0 5 [] (by decide)⟩

/-- C3: both peers derive the same shared secret — for private keys in
`[1000, 100000)`, `mod_pow (mod_pow G a P) b P = mod_pow (mod_pow G b P) a P`. -/
theorem c3_shared_secret_symmetry (a b : Nat)
    (ha : 1000 ≤ a ∧ a < 100000) (hb : 1000 ≤ b ∧ b < 100000) :
    mod_pow (mod_pow G a P) b P = mod_pow (mod_pow G b P) a P := by
  have hP1 : 1 < P := by norm_num [P]
  have hP2 : P ≤ 2 ^ 64 := by norm_num [P]
  rw [mod_pow_correct _ _ _ hP1 hP2, mod_pow_correct _ _ _ hP1 hP2,
      mod_pow_correct _ _ _ hP1 hP2, mod_pow_correct _ _ _ hP1 hP2]
  rw [← Nat.pow_mod, ← Nat.pow_mod, ← Nat.pow_mul, ← Nat.pow_mul, Nat.mul_comm]

/-- Closed instance of C3 at the private keys 1234 and 4321. -/
theorem c3_shared_secret_symmetry_witness :
    (1000 ≤ 1234 ∧ 1234 < 100000) ∧ (1000 ≤ 4321 ∧ 4321 < 100000) ∧
    mod_pow (mod_pow G 1234 P) 4321 P = mod_pow (mod_pow G 4321 P) 1234 P :=
  ⟨by decide, by decide, c3_shared_secret_symmetry 1234 4321 (by decide) (by decide)⟩

/-- C4: decrypting with a cipher seeded identically and advanced by the
same number `k` of prior bytes as the encrypting instance reproduces the
plaintext exactly, for every seed, offset and byte sequence. -/
theorem c4_decrypt_encrypt (seed k : Nat) (data : List Nat) :
    (decrypt (stepState k seed) (encrypt (stepState k seed) data).1).1 = data :=
  encrypt_encrypt data (stepState k seed)

/-- C5: each `next_byte` call updates the state to
`(state * 1103515245 + 12345) mod 2^32` — with the product exact, never
truncated before the reduction — and returns the low 8 bits of the new
state. -/
theorem c5_next_byte_spec (s : Nat) :
    (next_byte s).2 = (s * 1103515245 + 12345) % 2 ^ 32 ∧
    (next_byte s).1 = (next_byte s).2 % 256 := by
  constructor
  · rfl
  · exact Nat.and_pow_two_sub_one_eq_mod _ 8

/-- C6: for payloads of length at most 65535, reading a written frame
returns exactly the original payload and consumes exactly the frame's
bytes, whatever follows on the wire. -/
theorem c6_frame_roundtrip (payload extra : List Nat) (h : payload.length ≤ 65535) :
    readFrame (writeFrame payload ++ extra) = some (payload, extra) := by
  have hmod : payload.length % 2 ^ 16 = payload.length := Nat.mod_eq_of_lt (by omega)
  have hdec : u16_from_be (payload.length / 256 % 256) (payload.length % 256)
      = payload.length := by
    unfold u16_from_be
    omega
  simp only [writeFrame, u16_to_be, hmod, List.cons_append, List.nil_append, readFrame, hdec]
  rw [if_neg (by simp only [List.length_append]; omega), List.take_left, List.drop_left]

/-- Closed instance of C6 at the payload `[1, 2]` with trailing wire
bytes `[3]`. -/
theorem c6_frame_roundtrip_witness :
    ([1, 2] : List Nat).length ≤ 65535 ∧
    readFrame (writeFrame [1, 2] ++ [3]) = some ([1, 2], [3]) :=
  ⟨by decide, c6_frame_roundtrip [1, 2] [3] (by decide)⟩

/-- C7: two cipher instances seeded with the same 64-bit value and
advanced the same number of steps emit identical byte sequences. -/
theorem c7_keystream_determinism (s1 s2 k n : Nat) (h : s1 = s2) :
    keystream n (stepState k s1) = keystream n (stepState k s2) := by
  rw [h]

/-- Closed instance of C7 at seed 7, offset 3, five output bytes. -/
theorem c7_keystream_determinism_witness :
    (7 : Nat) = 7 ∧ keystream 5 (stepState 3 7) = keystream 5 (stepState 3 7) :=
  ⟨rfl, c7_keystream_determinism 7 7 3 5 rfl⟩

/-- C8: `mod_pow x 0 m = 1` for every base and every modulus `m > 1`,
and for moduli that fit the `u64` return type the square-and-multiply
loop computes exactly `x ^ e mod m` (intermediate products are taken at
full width before reduction). -/
theorem c8_mod_pow_spec (x e m : Nat) (hm : 1 < m) :
    mod_pow x 0 m = 1 ∧ (m ≤ 2 ^ 64 → mod_pow x e m = x ^ e % m) :=
  ⟨mod_pow_zero x m, fun hle => mod_pow_correct x e m hm hle⟩

/-- Closed instance of C8 at base 5, exponent 3, modulus 7. -/
theorem c8_mod_pow_spec_witness :
    (1 : Nat) < 7 ∧ (mod_pow 5 0 7 = 1 ∧ (7 ≤ 2 ^ 64 → mod_pow 5 3 7 = 5 ^ 3 % 7)) :=
  ⟨by decide, c8_mod_pow_spec 5 3 7 (by decide)⟩

/-- C9: encryption returns exactly as many bytes as it is given, so the
frame written for an encrypted message of at most 65535 bytes carries a
big-endian header that decodes to the plaintext length. -/
theorem c9_length_header (s : Nat) (msg : List Nat) :
    (encrypt s msg).1.length = msg.length ∧
    (msg.length ≤ 65535 →
      writeFrame (encrypt s msg).1
        = msg.length / 256 :: msg.length % 256 :: (encrypt s msg).1 ∧
      256 * (msg.length / 256) + msg.length % 256 = msg.length) := by
  refine ⟨encrypt_length msg s, fun h => ⟨?_, by omega⟩⟩
  unfold writeFrame u16_to_be
  rw [encrypt_length msg s]
  have h1 : msg.length % 2 ^ 16 = msg.length := Nat.mod_eq_of_lt (by omega)
  have h2 : msg.length / 256 % 256 = msg.length / 256 := Nat.mod_eq_of_lt (by omega)
  rw [h1, h2]
  rfl

/-- Closed instance of C9 at seed 9 and the two-byte message
`[104, 105]`. -/
theorem c9_length_header_witness :
    (encrypt 9 [104, 105]).1.length = ([104, 105] : List Nat).length ∧
    (([104, 105] : List Nat).length ≤ 65535 →
      writeFrame (encrypt 9 [104, 105]).1
        = ([104, 105] : List Nat).length / 256
            :: ([104, 105] : List Nat).length % 256 :: (encrypt 9 [104, 105]).1 ∧
      256 * (([104, 105] : List Nat).length / 256) + ([104, 105] : List Nat).length % 256
        = ([104, 105] : List Nat).length) :=
  c9_length_header 9 [104, 105]

/-- C10: when a frame of payload length `L` is read in full, the
receive cipher advances by exactly `L` keystream steps whether or not
the decrypted bytes are valid UTF-8; invalid UTF-8 is silently dropped
(`dropped`, no message surfaced) and the loop continues at the correct
keystream offset. -/
theorem c10_recv_cipher_advance (s b0 b1 : Nat) (rest : List Nat)
    (h : u16_from_be b0 b1 ≤ rest.length) :
    (validUtf8 (decrypt s (rest.take (u16_from_be b0 b1))).1 = true →
      recvStep s (b0 :: b1 :: rest)
        = RecvOutcome.surfaced (decrypt s (rest.take (u16_from_be b0 b1))).1
            (stepState (u16_from_be b0 b1) s) (rest.drop (u16_from_be b0 b1))) ∧
    (validUtf8 (decrypt s (rest.take (u16_from_be b0 b1))).1 = false →
      recvStep s (b0 :: b1 :: rest)
        = RecvOutcome.dropped (stepState (u16_from_be b0 b1) s)
            (rest.drop (u16_from_be b0 b1))) := by
  have hstate : (decrypt s (rest.take (u16_from_be b0 b1))).2
      = stepState (u16_from_be b0 b1) s := by
    rw [decrypt, encrypt_state, List.length_take, Nat.min_eq_left h]
  constructor <;> intro hv
  · simp only [recvStep]
    rw [if_neg (by omega)]
    simp only [hv, if_true, hstate]
  · simp only [recvStep]
    rw [if_neg (by omega)]
    simp only [hv, Bool.false_eq_true, if_false, hstate]

/-- Closed instance of C10: a one-byte frame whose payload decrypts to
the non-UTF-8 byte 0xC6, exercising the silently-dropped branch. -/
theorem c10_recv_cipher_advance_witness :
    u16_from_be 0 1 ≤ ([255] : List Nat).length ∧
    ((validUtf8 (decrypt 0 (([255] : List Nat).take (u16_from_be 0 1))).1 = true →
      recvStep 0 (0 :: 1 :: [255])
        = RecvOutcome.surfaced (decrypt 0 (([255] : List Nat).take (u16_from_be 0 1))).1
            (stepState (u16_from_be 0 1) 0) (([255] : List Nat).drop (u16_from_be 0 1))) ∧
     (validUtf8 (decrypt 0 (([255] : List Nat).take (u16_from_be 0 1))).1 = false →
      recvStep 0 (0 :: 1 :: [255])
        = RecvOutcome.dropped (stepState (u16_from_be 0 1) 0)
            (([255] : List Nat).drop (u16_from_be 0 1)))) :=
  ⟨by decide, c10_recv_cipher_advance 0 0 1 [255] (by decide)⟩

end StreamChat
